import Mathlib

/-!
Verification of the design-token pipeline (Figma → token store → Swift sources).

This file gives a shallow embedding of the token-transformation logic of the
repository: the two category classifiers (the plugin one in
`determineTokenCategory` and the Variables-API one inside
`FigmaSync.createTokenPath`), the name sanitizer, the colour conversion
`colorToHex`, the per-type value transforms of both adapters, the nested token
store built by `FigmaSync` (`setNestedValue`), the flat token store built by the
plugin (`transformVariablesToTokens`), the hand-written Swift renderer
(`PluginSync.generateColors` and `generateSpacing`), the webhook handler
(`POST /figma-webhook`), and the credential check at `FigmaSync` start-up.

JavaScript strings are modelled over their character lists; lower-casing is
modelled for the ASCII range, which covers every string the programs produce or
match against.  JavaScript numbers are modelled as rationals; `Math.round` is
floor of the value plus one half, which is its exact behaviour apart from
binary floating-point representation error.
-/

namespace DesignTokens

/-! ### JS string primitives -/

/-- ASCII lower-casing of one character, as `String.prototype.toLowerCase`
acts on the ASCII range (the only range the repository ever feeds it). -/
def toLowerAscii (c : Char) : Char :=
  if 65 ≤ c.toNat && c.toNat ≤ 90 then Char.ofNat (c.toNat + 32) else c

/-- Model of `s.toLowerCase()`. -/
def jsToLower (s : String) : String := String.mk (s.data.map toLowerAscii)

/-- Does the first list start with the second one? -/
def listStartsWith : List Char → List Char → Bool
  | _, [] => true
  | [], _ :: _ => false
  | a :: as, b :: bs => a == b && listStartsWith as bs

/-- Does the second list occur as a contiguous sublist of the first? -/
def listContainsSub (needle : List Char) : List Char → Bool
  | [] => listStartsWith [] needle
  | c :: t => listStartsWith (c :: t) needle || listContainsSub needle t

/-- Model of `s.includes(sub)`. -/
def strIncludes (s sub : String) : Bool := listContainsSub sub.data s.data

/-- Model of `s.startsWith(sub)`. -/
def strStartsWith (s sub : String) : Bool := listStartsWith s.data sub.data

/-- Model of testing `name` against the case-insensitive regex alternation of
the (lower-case, letter-only) literals in `words`: for such literals,
`/w1|w2|.../i.test(name)` holds exactly when the lower-cased name contains one
of the words. -/
def matchAnyCI (s : String) (words : List String) : Bool :=
  words.any (fun w => strIncludes (jsToLower s) w)

/-! ### Token categories and variable types -/

/-- The six token categories of the store. -/
inductive Category where
  | color
  | typography
  | spacing
  | borderRadius
  | shadow
  | opacity
deriving DecidableEq

/-- The category keys used in the token store JSON. -/
def categoryKey : Category → String
  | .color => "color"
  | .typography => "typography"
  | .spacing => "spacing"
  | .borderRadius => "borderRadius"
  | .shadow => "shadow"
  | .opacity => "opacity"

/-- A Figma variable's `resolvedType`; `other` covers any further type tag. -/
inductive VarType where
  | COLOR
  | FLOAT
  | STRING
  | BOOLEAN
  | other (tag : String)
deriving DecidableEq

/-- `determineTokenCategory(name, type)` of the plugin (`code.js`): a `switch`
on the resolved type, with substring checks on the lower-cased name in the
FLOAT and STRING branches and `spacing` as the default. -/
def determineTokenCategory (name : String) (type : VarType) : Category :=
  let lowerName := jsToLower name
  match type with
  | .COLOR => .color
  | .FLOAT =>
    if strIncludes lowerName "spacing" || strIncludes lowerName "padding" ||
        strIncludes lowerName "margin" then .spacing
    else if strIncludes lowerName "radius" || strIncludes lowerName "corner" then .borderRadius
    else if strIncludes lowerName "opacity" || strIncludes lowerName "alpha" then .opacity
    else .spacing
  | .STRING =>
    if strIncludes lowerName "font" || strIncludes lowerName "typography" ||
        strIncludes lowerName "text" then .typography
    else .typography
  | _ => .spacing

/-- The category computation inside `FigmaSync.createTokenPath`
(`scripts/sync-plugin.js`): case-insensitive regex tests on the variable name
only, in source order, with `spacing` as the default.  The variable's resolved
type plays no part. -/
def createTokenPathCategory (name : String) : Category :=
  if matchAnyCI name ["color", "background", "foreground", "border"] then .color
  else if matchAnyCI name ["font", "text", "typography"] then .typography
  else if matchAnyCI name ["radius", "corner"] then .borderRadius
  else if matchAnyCI name ["shadow"] then .shadow
  else if matchAnyCI name ["opacity", "alpha"] then .opacity
  else .spacing

/-! ### Name sanitization -/

/-- Characters kept by the `replace(/[^a-z0-9]/g, "")` step. -/
def isLowerAlnum (c : Char) : Bool :=
  (97 ≤ c.toNat && c.toNat ≤ 122) || (48 ≤ c.toNat && c.toNat ≤ 57)

/-- Model of `replace(/^w/, "")` for a literal word `w`: drop `w` when it is a
prefix, otherwise leave the string unchanged. -/
def stripLeadingWord (w : List Char) (l : List Char) : List Char :=
  if listStartsWith l w then l.drop w.length else l

/-- `sanitizeVariableName` of the plugin (`code.js`): lower-case, delete every
character outside `[a-z0-9]`, then strip the leading words `color`, `spacing`,
`typography`, `borderradius`, each at most once, in that order. -/
def sanitizeVariableName (s : String) : String :=
  String.mk (stripLeadingWord "borderradius".data
    (stripLeadingWord "typography".data
      (stripLeadingWord "spacing".data
        (stripLeadingWord "color".data
          ((s.data.map toLowerAscii).filter isLowerAlnum)))))

/-- `FigmaFileSync.sanitizeName` (`scripts/sync-figma-file.js`): same as the
plugin sanitizer but without the `borderradius` strip. -/
def sanitizeName (s : String) : String :=
  String.mk (stripLeadingWord "typography".data
    (stripLeadingWord "spacing".data
      (stripLeadingWord "color".data
        ((s.data.map toLowerAscii).filter isLowerAlnum))))

/-! ### Token path helpers of `FigmaSync` -/

/-- The whitespace class of the JS regex `\s`, restricted to ASCII. -/
def isJsWs (c : Char) : Bool :=
  c == ' ' || c == '\t' || c == '\n' || c == '\r'

/-- Model of `replace(/\s+/g, "-")`: every maximal run of whitespace becomes a
single dash. -/
def collapseWsDash : List Char → List Char
  | [] => []
  | [c] => if isJsWs c then ['-'] else [c]
  | a :: b :: t =>
    if isJsWs a && isJsWs b then collapseWsDash (b :: t)
    else (if isJsWs a then '-' else a) :: collapseWsDash (b :: t)

/-- Model of `s.toLowerCase().replace(/\s+/g, "-")`, used by
`FigmaSync.createTokenPath` on variable, collection and mode names. -/
def jsDashName (s : String) : String :=
  String.mk (collapseWsDash (jsToLower s).data)

/-- `FigmaSync.createTokenPath(variable, collection, mode)`: the dotted path
`category.collection.mode.variable` with each name lower-cased and
whitespace-dashed, the category coming from the name regexes alone. -/
def createTokenPath (variableName collectionName modeName : String) : String :=
  categoryKey (createTokenPathCategory variableName) ++ "." ++
    jsDashName collectionName ++ "." ++ jsDashName modeName ++ "." ++
    jsDashName variableName

/-- Model of `path.split(".")` (segments between dots, empties preserved). -/
def splitDotAux : List Char → List Char → List (List Char)
  | [], acc => [acc.reverse]
  | c :: t, acc =>
    if c == '.' then acc.reverse :: splitDotAux t [] else splitDotAux t (c :: acc)

/-- `path.split(".")` on strings. -/
def splitDot (s : String) : List String :=
  (splitDotAux s.data []).map String.mk

/-! ### Colour conversion -/

/-- A Figma RGBA colour value, channels as JS numbers in the unit interval. -/
structure FigmaColor where
  r : ℚ
  g : ℚ
  b : ℚ
  a : ℚ
deriving DecidableEq

/-- `Math.round`: floor of the argument plus one half. -/
def jsRound (q : ℚ) : ℤ := ⌊q + 1/2⌋

/-- The character for one hex digit, lower-case, as `Number.prototype.toString`
with radix 16 produces. -/
def hexDigitChar (n : ℕ) : Char :=
  if n < 10 then Char.ofNat (48 + n) else Char.ofNat (87 + n)

/-- Hex digit list of a natural number, most significant first, no leading
zeros (so a single digit for numbers below 16). -/
def natToHex (n : ℕ) : List Char :=
  if _h : n < 16 then [hexDigitChar n]
  else natToHex (n / 16) ++ [hexDigitChar (n % 16)]
termination_by n
decreasing_by exact Nat.div_lt_self (by omega) (by omega)

/-- `i.toString(16)` for an integer: a minus sign followed by the digits of the
absolute value when negative. -/
def intToHex (i : ℤ) : List Char :=
  if i < 0 then '-' :: natToHex i.natAbs else natToHex i.toNat

/-- `padStart(2, "0")` on a character list. -/
def padStartTwoZero (l : List Char) : List Char :=
  List.replicate (2 - l.length) '0' ++ l

/-- The arrow `toHex` inside `colorToHex`:
`Math.round(n * 255).toString(16).padStart(2, "0")`. -/
def toHexByte (q : ℚ) : String :=
  String.mk (padStartTwoZero (intToHex (jsRound (q * 255))))

/-- The result of `colorToHex`.  The `rgba` constructor stands for the template
string `rgba(r, g, b, a)`: its three integer components are rendered in
decimal and the alpha is interpolated unchanged; the JS decimal rendering of
the float alpha is abstracted into the constructor argument. -/
inductive ColorOut where
  | hex (s : String)
  | rgba (r g b : ℤ) (a : ℚ)
deriving DecidableEq

/-- `colorToHex(color)` of the plugin and of `FigmaSync` (identical code):
`rgba(...)` when the alpha is below one, otherwise `#` plus three padded hex
bytes.  The JS `null` guard for non-object arguments lives one level up, in
`jsColorToHex`. -/
def colorToHex (c : FigmaColor) : ColorOut :=
  if c.a < 1 then
    .rgba (jsRound (c.r * 255)) (jsRound (c.g * 255)) (jsRound (c.b * 255)) c.a
  else
    .hex ("#" ++ toHexByte c.r ++ toHexByte c.g ++ toHexByte c.b)

/-- The canonical two-digit lower-case hex rendering of a byte value, as the
specification words it: the value rendered in hexadecimal and zero-padded to
two digits. -/
def specTwoHex (n : ℕ) : String :=
  String.mk [hexDigitChar (n / 16), hexDigitChar (n % 16)]

/-! ### Variable values and the per-type transforms -/

/-- The JS values a Figma variable mode can carry in this pipeline: a number, a
string, an RGBA colour object, a boolean, or null. -/
inductive JsValue where
  | num (q : ℚ)
  | str (s : String)
  | colorObj (c : FigmaColor)
  | boolean (b : Bool)
  | null
deriving DecidableEq

/-- JS truthiness of a value (`Boolean(value)`): zero, the empty string, null
and NaN are falsy, objects are truthy. -/
def jsTruthy : JsValue → Bool
  | .num q => decide (q ≠ 0)
  | .str s => !s.isEmpty
  | .colorObj _ => true
  | .boolean b => b
  | .null => false

/-- The values a transform can produce. -/
inductive TokenValue where
  | colorOut (c : ColorOut)
  | num (q : ℚ)
  | raw (v : JsValue)
  | boolean (b : Bool)
  | nan
deriving DecidableEq

/-- `colorToHex` as called on a raw JS value: the
`if (!color || typeof color !== "object") return null` guard sends every
non-object to null; a colour object goes through `colorToHex`. -/
def jsColorToHex : JsValue → Option ColorOut
  | .colorObj c => some (colorToHex c)
  | _ => none

/-- `parseFloat(value)`.  A numeric argument comes back unchanged; parsing of
string arguments (never exercised by the claims) is not modelled further and
collapses, like every non-numeric argument, to NaN.  Both adapters call the
same JS `parseFloat`, so using one shared model preserves their relationship.
-/
def jsParseFloat : JsValue → TokenValue
  | .num q => .num q
  | _ => .nan

/-- `transformVariableValue(type, value)` of the plugin (`code.js`): COLOR via
`colorToHex` (null propagates as `none`), FLOAT via `parseFloat`, STRING
returned as is, BOOLEAN via `Boolean(value)`, and any other type returned as
is. -/
def transformVariableValue (type : VarType) (value : JsValue) : Option TokenValue :=
  match type with
  | .COLOR => (jsColorToHex value).map .colorOut
  | .FLOAT => some (jsParseFloat value)
  | .STRING => some (.raw value)
  | .BOOLEAN => some (.boolean (jsTruthy value))
  | .other _ => some (.raw value)

/-- `FigmaSync.transformValue(type, value)` (`scripts/sync-plugin.js`): the same
four known branches, but an unknown type logs a warning and yields null. -/
def transformValue (type : VarType) (value : JsValue) : Option TokenValue :=
  match type with
  | .COLOR => (jsColorToHex value).map .colorOut
  | .FLOAT => some (jsParseFloat value)
  | .STRING => some (.raw value)
  | .BOOLEAN => some (.boolean (jsTruthy value))
  | .other _ => none

/-! ### JSON-like token trees and the `FigmaSync` store -/

/-- A JSON-like tree of string-keyed objects with transformed values at the
leaves, modelling the mutable `tokens` object of `FigmaSync`. -/
inductive TokenTree where
  | leaf (v : TokenValue)
  | node (fields : List (String × TokenTree))

/-- Set a key in a JS object: an existing key keeps its position, a new key is
appended at the end. -/
def setKey {α : Type} : List (String × α) → String → α → List (String × α)
  | [], k, v => [(k, v)]
  | (k0, v0) :: rest, k, v =>
    if k0 = k then (k, v) :: rest else (k0, v0) :: setKey rest k v

/-- Read a key of a JS object (first occurrence). -/
def lookupKey {α : Type} : List (String × α) → String → Option α
  | [], _ => none
  | (k0, v0) :: rest, k => if k0 = k then some v0 else lookupKey rest k

/-- JS truthiness of a stored token value (used by the
`if (!current[keys[i]]) current[keys[i]] = {}` test). -/
def tokenTruthy : TokenValue → Bool
  | .colorOut _ => true
  | .num q => decide (q ≠ 0)
  | .raw v => jsTruthy v
  | .boolean b => b
  | .nan => false

/-- `FigmaSync.setNestedValue(obj, path, value)` on the field list of an
object: walk the path keys, creating `\x7b\x7d` for missing or falsy
intermediates, and assign the value at the last key.  Descending through an
existing truthy non-object is reported as an error: there the JS either loses
the write or raises a TypeError, and no claim exercises that corner. -/
def setNestedFields (fields : List (String × TokenTree)) :
    List String → TokenValue → Except String (List (String × TokenTree))
  | [], _ => .error "empty key path"
  | [k], v => .ok (setKey fields k (.leaf v))
  | k :: k1 :: rest, v => do
    let childFields : List (String × TokenTree) ←
      match lookupKey fields k with
      | some (.node cs) => Except.ok cs
      | some (.leaf lv) =>
        if tokenTruthy lv then Except.error "path segment hits a primitive"
        else Except.ok []
      | none => Except.ok []
    let updated ← setNestedFields childFields (k1 :: rest) v
    .ok (setKey fields k (.node updated))

/-- A Figma variable as delivered by the variables endpoint. -/
structure FigmaVariable where
  name : String
  resolvedType : VarType
  collectionId : String
  valuesByMode : List (String × JsValue)

/-- A variable collection: its display name and its modes (mode id to mode
name). -/
structure FigmaCollection where
  name : String
  modes : List (String × String)

/-- The payload of `GET /v1/files/\x7bfileKey\x7d/variables/local`:
`meta.variableCollections` and `values`, both keyed by id. -/
structure FigmaData where
  variableCollections : List (String × FigmaCollection)
  values : List (String × FigmaVariable)

/-- The initial `tokens` object of `FigmaSync.transformToStyleDictionary`: six
empty category objects. -/
def emptyCategoryFields : List (String × TokenTree) :=
  [("color", .node []), ("typography", .node []), ("spacing", .node []),
   ("borderRadius", .node []), ("shadow", .node []), ("opacity", .node [])]

/-- `FigmaSync.transformToStyleDictionary(\x7bmeta, values\x7d)`: for each
variable, look up its collection, apply the optional collection filter; for
each mode value, look up the mode name, apply the optional mode filter, build
the dotted token path, transform the value by type, and set it into the nested
store (skipping null transforms).  A missing collection or mode id, where the
JS would raise a TypeError, is an error. -/
def transformToStyleDictionary (collectionsFilter modesFilter : List String)
    (data : FigmaData) : Except String TokenTree := do
  let fields ← data.values.foldlM (fun fields idVar => do
    let v := idVar.2
    match lookupKey data.variableCollections v.collectionId with
    | none => Except.error "TypeError: collection is undefined"
    | some collection =>
      if collectionsFilter.length > 0 && !collectionsFilter.contains collection.name then
        Except.ok fields
      else
        v.valuesByMode.foldlM (fun fields modeVal => do
          match lookupKey collection.modes modeVal.1 with
          | none => Except.error "TypeError: mode is undefined"
          | some modeName =>
            if modesFilter.length > 0 && !modesFilter.contains modeName then
              Except.ok fields
            else
              let tokenPath := createTokenPath v.name collection.name modeName
              match transformValue v.resolvedType modeVal.2 with
              | none => Except.ok fields
              | some tv => setNestedFields fields (splitDot tokenPath) tv) fields)
    emptyCategoryFields
  .ok (.node fields)

/-- The `$metadata` block `FigmaSync.saveTokens` writes. -/
def figmaMetadata (timestamp : String) : TokenTree :=
  .node [("generatedAt", .leaf (.raw (.str timestamp))),
         ("source", .leaf (.raw (.str "figma"))),
         ("version", .leaf (.raw (.str "1.0.0")))]

/-- The object `FigmaSync.saveTokens` serialises:
`\x7b$metadata: ..., ...tokens\x7d`, the metadata key first. -/
def saveTokensOutput (metadata : TokenTree) : TokenTree → TokenTree
  | .node fields => .node (("$metadata", metadata) :: fields)
  | .leaf v => .leaf v

/-! ### The declared store shape -/

/-- Is this tree an object carrying at least `value` and `type` fields?  (The
shape the specification declares for every token entry.) -/
def isTokenObject : TokenTree → Bool
  | .node fields => (lookupKey fields "value").isSome && (lookupKey fields "type").isSome
  | .leaf _ => false

/-- Does a category object map every key directly to a token object? -/
def categoryWellFormed : TokenTree → Bool
  | .node entries => entries.all (fun e => isTokenObject e.2)
  | .leaf _ => false

/-- The declared token-store shape: an object with a `$metadata` key whose
every other key holds a name-to-token-object mapping. -/
def storeHasDeclaredShape : TokenTree → Bool
  | .node fields =>
    (lookupKey fields "$metadata").isSome &&
      fields.all (fun e => e.1 == "$metadata" || categoryWellFormed e.2)
  | .leaf _ => false

/-! ### The `FigmaSync` CLI run -/

/-- Is an environment variable missing or empty (JS falsy)? -/
def jsFalsyEnv : Option String → Bool
  | none => true
  | some s => s.isEmpty

/-- Observable outcome of one `FigmaSync` run. -/
structure SyncRunOutcome where
  exitCode : Option ℕ
  errorMessage : Option String
  networkCalled : Bool
  tokensWritten : Bool
  written : Option TokenTree

/-- One run of the Variables-API adapter (`new FigmaSync(); sync.run()`): the
constructor exits with code 1 when the access token or the file key is unset
or empty, before `fetchVariables` issues any request; a fetch error exits with
code 1 after the network call; otherwise the store is transformed and written.
The network fetch itself is opaque and enters as `fetchResult`. -/
def figmaSyncRun (accessToken fileKey : Option String)
    (collectionsFilter modesFilter : List String)
    (fetchResult : Except String FigmaData) (timestamp : String) : SyncRunOutcome :=
  if jsFalsyEnv accessToken || jsFalsyEnv fileKey then
    { exitCode := some 1,
      errorMessage := some "Missing required environment variables: FIGMA_ACCESS_TOKEN and FIGMA_FILE_KEY must be set in .env file",
      networkCalled := false, tokensWritten := false, written := none }
  else
    match fetchResult with
    | .error e =>
      { exitCode := some 1, errorMessage := some e,
        networkCalled := true, tokensWritten := false, written := none }
    | .ok data =>
      match transformToStyleDictionary collectionsFilter modesFilter data with
      | .error e =>
        { exitCode := some 1, errorMessage := some e,
          networkCalled := true, tokensWritten := false, written := none }
      | .ok tokens =>
        { exitCode := none, errorMessage := none,
          networkCalled := true, tokensWritten := true,
          written := some (saveTokensOutput (figmaMetadata timestamp) tokens) }

/-! ### The plugin store (`transformVariablesToTokens`) -/

/-- A local variable as the plugin reads it
(`figma.variables.getLocalVariablesAsync`). -/
structure PluginVariable where
  name : String
  key : String
  resolvedType : VarType
  valuesByMode : List (String × JsValue)

/-- The object literal the plugin assigns at `tokens[category][name]`. -/
structure PluginToken where
  value : TokenValue
  type : Category
  variableId : String
  originalName : String
  resolvedType : VarType
deriving DecidableEq

/-- The plugin store: one name-to-token object per category. -/
def PluginTokens : Type := Category → List (String × PluginToken)

/-- The initial plugin store: six empty category objects. -/
def emptyPluginTokens : PluginTokens := fun _ => []

/-- Assignment `tokens[category][name] = entry`. -/
def pluginSetToken (t : PluginTokens) (c : Category) (n : String)
    (e : PluginToken) : PluginTokens :=
  fun c0 => if c0 = c then setKey (t c) n e else t c0

/-- `transformVariablesToTokens(variables)` of the plugin (`code.js`): for each
variable compute the sanitized name and the category once, then for each mode
transform the value and, unless the transform is null, assign the token object
at `tokens[category][name]` — every mode of a variable targets the same slot.
-/
def transformVariablesToTokens (vars : List PluginVariable) : PluginTokens :=
  vars.foldl (fun tokens v =>
    let name := sanitizeVariableName v.name
    let category := determineTokenCategory v.name v.resolvedType
    v.valuesByMode.foldl (fun tokens modeVal =>
      match transformVariableValue v.resolvedType modeVal.2 with
      | none => tokens
      | some tv =>
        pluginSetToken tokens category name
          { value := tv, type := category, variableId := v.key,
            originalName := v.name, resolvedType := v.resolvedType }) tokens)
    emptyPluginTokens

/-- One successful store write: target category, target name, written entry. -/
structure StoreWrite where
  category : Category
  name : String
  entry : PluginToken
deriving DecidableEq

/-- The sequence of successful writes `transformVariablesToTokens` performs,
in execution order: one per (variable, mode) pair whose transform is not null.
-/
def pluginWrites (vars : List PluginVariable) : List StoreWrite :=
  vars.flatMap (fun v =>
    v.valuesByMode.filterMap (fun modeVal =>
      match transformVariableValue v.resolvedType modeVal.2 with
      | none => none
      | some tv =>
        some { category := determineTokenCategory v.name v.resolvedType,
               name := sanitizeVariableName v.name,
               entry := { value := tv,
                          type := determineTokenCategory v.name v.resolvedType,
                          variableId := v.key, originalName := v.name,
                          resolvedType := v.resolvedType } }))

/-- The last write in the list aimed at a given category and name, if any. -/
def findLastWrite : List StoreWrite → Category → String → Option PluginToken
  | [], _, _ => none
  | w :: ws, c, n =>
    match findLastWrite ws c n with
    | some e => some e
    | none => if w.category = c ∧ w.name = n then some w.entry else none

/-- Replay a write sequence onto a store. -/
def applyWrites (ws : List StoreWrite) (t : PluginTokens) : PluginTokens :=
  ws.foldl (fun t w => pluginSetToken t w.category w.name w.entry) t

/-- The JSON string for a resolved type tag. -/
def varTypeKey : VarType → String
  | .COLOR => "COLOR"
  | .FLOAT => "FLOAT"
  | .STRING => "STRING"
  | .BOOLEAN => "BOOLEAN"
  | .other tag => tag

/-- The token-tree rendering of one plugin token entry, as the plugin
serialises it to JSON (five fields, `value` and `type` first). -/
def pluginTokenTree (e : PluginToken) : TokenTree :=
  .node [("value", .leaf e.value),
         ("type", .leaf (.raw (.str (categoryKey e.type)))),
         ("variableId", .leaf (.raw (.str e.variableId))),
         ("originalName", .leaf (.raw (.str e.originalName))),
         ("resolvedType", .leaf (.raw (.str (varTypeKey e.resolvedType))))]

/-- The six categories in the order the plugin declares them. -/
def allCategories : List Category :=
  [.color, .typography, .spacing, .borderRadius, .shadow, .opacity]

/-- The token-tree rendering of the whole plugin store, with the `$metadata`
block `commitToGitHub` prepends. -/
def pluginStoreTree (metadata : TokenTree) (t : PluginTokens) : TokenTree :=
  .node (("$metadata", metadata) ::
    allCategories.map (fun c =>
      (categoryKey c, .node ((t c).map (fun e => (e.1, pluginTokenTree e.2))))))

/-! ### The hand-written Swift renderer (`PluginSync`) -/

/-- `PluginSync.toSwiftName(name)`: first character lower-cased, rest kept. -/
def toSwiftName (name : String) : String :=
  match name.data with
  | [] => ""
  | c :: rest => String.mk (toLowerAscii c :: rest)

/-- A color-category token as the renderer reads it: its `value` is a hex (or
raw) string. -/
structure ColorToken where
  value : String
deriving DecidableEq

/-- A numeric token (spacing, borderRadius) as the renderer reads it. -/
structure NumToken where
  value : ℚ
deriving DecidableEq

/-- Decimal rendering of a JS number.  Faithful for integers, the only values
the claims exercise; a non-integral rational is rendered `num/den` where JS
would print a decimal expansion. -/
def jsNumToString (q : ℚ) : String :=
  if q.den = 1 then toString q.num else toString q.num ++ "/" ++ toString q.den

/-- `PluginSync.generateColors()`: the fixed header with the timestamp, one
`static let` line per color token (prefixing `#` when the stored value lacks
it), and the closing brace. -/
def generateColors (timestamp : String) (colors : List (String × ColorToken)) : String :=
  (colors.foldl (fun out nt =>
    out ++ "    static let " ++ toSwiftName nt.1 ++ " = Color(hex: \"" ++
      (if strStartsWith nt.2.value "#" then nt.2.value else "#" ++ nt.2.value) ++
      "\")\n")
    ("//\n//  Colors.swift\n//  Design System\n//\n//  ⚠️  AUTO-GENERATED FILE - DO NOT EDIT MANUALLY\n//  Generated from Figma Variables via Plugin\n//  Last updated: " ++ timestamp ++ "\n//\n\nimport SwiftUI\n\nextension Color \x7b\n")) ++
    "\x7d\n"

/-- `PluginSync.generateSpacing()`: the fixed header with the timestamp, one
`static let ...: CGFloat = value` line per spacing token, and the closing
brace. -/
def generateSpacing (timestamp : String) (spacing : List (String × NumToken)) : String :=
  (spacing.foldl (fun out nt =>
    out ++ "    static let " ++ toSwiftName nt.1 ++ ": CGFloat = " ++
      jsNumToString nt.2.value ++ "\n")
    ("//\n//  Spacing.swift\n//  Design System\n//\n//  ⚠️  AUTO-GENERATED FILE - DO NOT EDIT MANUALLY\n//  Generated from Figma Variables via Plugin\n//  Last updated: " ++ timestamp ++ "\n//\n\nimport SwiftUI\n\nstruct Spacing \x7b\n")) ++
    "\x7d\n"

/-! ### The webhook handler -/

/-- The claim-relevant parts of the JSON body an endpoint sends back.  The
success response also carries the repository, commit and timestamp fields; the
error response only the two fields modelled here. -/
structure WebhookResponse where
  status : ℕ
  success : Option Bool
  message : Option String
  error : Option String
deriving DecidableEq

/-- `POST /figma-webhook` (webhook-server.js): a body whose `event` is not
`tokens_updated` is acknowledged with 200 and no command runs; otherwise
`git pull origin main` and then the Swift regeneration run sequentially, a
rejection of either being caught and answered with 500 and the error message,
success with 200 and `success: true`.  The two shell commands are opaque and
enter as `Except` results; the returned list records the commands actually
executed, in order. -/
def figmaWebhookHandler (event : String)
    (pullResult generateResult : Except String String) :
    WebhookResponse × List String :=
  if event ≠ "tokens_updated" then
    ({ status := 200, success := none, message := some "Event ignored", error := none }, [])
  else
    match pullResult with
    | .error e =>
      ({ status := 500, success := some false, message := none, error := some e },
       ["git pull origin main"])
    | .ok _ =>
      match generateResult with
      | .error e =>
        ({ status := 500, success := some false, message := none, error := some e },
         ["git pull origin main", "cd scripts && npm run generate-swift"])
      | .ok _ =>
        ({ status := 200, success := some true,
           message := some "Tokens updated successfully", error := none },
         ["git pull origin main", "cd scripts && npm run generate-swift"])

/-! ### Probes into token trees -/

/-- Follow a key path down a token tree. -/
def getPath : TokenTree → List String → Option TokenTree
  | t, [] => some t
  | .leaf _, _ :: _ => none
  | .node fields, k :: rest =>
    match lookupKey fields k with
    | some t => getPath t rest
    | none => none

/-- The leaf value at a key path, if the path ends at a leaf. -/
def leafAt (t : TokenTree) (path : List String) : Option TokenValue :=
  match getPath t path with
  | some (.leaf v) => some v
  | _ => none

/-- Run the Variables-API transform without filters and check the declared
store shape of the saved output (`none` when the transform errors). -/
def figmaStoreShapeCheck (d : FigmaData) (timestamp : String) : Option Bool :=
  match transformToStyleDictionary [] [] d with
  | .ok t => some (storeHasDeclaredShape (saveTokensOutput (figmaMetadata timestamp) t))
  | .error _ => none

/-- Run the Variables-API transform without filters and read the leaf value at
a path of its store (`none` when the transform errors or the path misses). -/
def figmaLeafProbe (d : FigmaData) (path : List String) : Option TokenValue :=
  match transformToStyleDictionary [] [] d with
  | .ok t => leafAt t path
  | .error _ => none

/-- A one-collection, one-variable input to the Variables-API adapter: the
collection `Primitives` with mode `Light`, and the FLOAT variable `space-lg`
valued 8 in that mode. -/
def cexFigmaData : FigmaData :=
  { variableCollections := [("c1", { name := "Primitives", modes := [("m1", "Light")] })],
    values := [("v1", { name := "space-lg", resolvedType := .FLOAT,
                        collectionId := "c1", valuesByMode := [("m1", .num 8)] })] }

/-! ## Supporting lemmas -/

theorem toLowerAscii_of_lowerAlnum {c : Char} (h : isLowerAlnum c = true) :
    toLowerAscii c = c := by
  unfold isLowerAlnum at h
  rw [Bool.or_eq_true, Bool.and_eq_true, Bool.and_eq_true] at h
  simp only [decide_eq_true_eq] at h
  unfold toLowerAscii
  rw [if_neg]
  simp only [Bool.and_eq_true, decide_eq_true_eq, not_and]
  omega

theorem map_toLowerAscii_eq_self {l : List Char}
    (h : ∀ c ∈ l, isLowerAlnum c = true) : l.map toLowerAscii = l := by
  induction l with
  | nil => rfl
  | cons c t ih =>
    rw [List.map_cons, toLowerAscii_of_lowerAlnum (h c (by simp)),
      ih (fun x hx => h x (by simp [hx]))]

theorem stripLeadingWord_subset (w l : List Char) : stripLeadingWord w l ⊆ l := by
  unfold stripLeadingWord
  split
  · exact List.drop_subset _ _
  · exact fun _ h => h

theorem stripLeadingWord_noop {w l : List Char} (h : listStartsWith l w = false) :
    stripLeadingWord w l = l := by
  unfold stripLeadingWord
  rw [if_neg (by simp [h])]

theorem sanitizeVariableName_chars (s : String) :
    ∀ c ∈ (sanitizeVariableName s).data, isLowerAlnum c = true := by
  intro c hc
  unfold sanitizeVariableName at hc
  have h0 : c ∈ ((s.data.map toLowerAscii).filter isLowerAlnum) :=
    stripLeadingWord_subset _ _ (stripLeadingWord_subset _ _
      (stripLeadingWord_subset _ _ (stripLeadingWord_subset _ _ hc)))
  exact (List.mem_filter.mp h0).2

theorem sanitizeVariableName_fixed (t : String)
    (hchars : ∀ c ∈ t.data, isLowerAlnum c = true)
    (h1 : listStartsWith t.data ("color".data) = false)
    (h2 : listStartsWith t.data ("spacing".data) = false)
    (h3 : listStartsWith t.data ("typography".data) = false)
    (h4 : listStartsWith t.data ("borderradius".data) = false) :
    sanitizeVariableName t = t := by
  unfold sanitizeVariableName
  rw [map_toLowerAscii_eq_self hchars, List.filter_eq_self.mpr hchars,
    stripLeadingWord_noop h1, stripLeadingWord_noop h2, stripLeadingWord_noop h3,
    stripLeadingWord_noop h4]

/-! ## C1: category classification -/

/-- C1, counterexample.  The claim bundles two incompatible readings: the
FLOAT-typed variable `shadow-soft` is classified `spacing` by the plugin
classifier (which has no shadow branch), while the claimed regex groups — and
the Variables-API classifier implementing them — put it in `shadow`; so no one
classification function of (name, type) in the code satisfies the whole claim.
-/
theorem categoryClassification_counterexample :
    determineTokenCategory "shadow-soft" VarType.FLOAT = Category.spacing ∧
    createTokenPathCategory "shadow-soft" = Category.shadow ∧
    Category.spacing ≠ Category.shadow := by
  decide

/-- C1, amended.  Each adapter classifies by a pure function: the plugin one
maps every COLOR-typed variable to color and every STRING-typed one to
typography, and classifies the FLOAT examples as claimed; the Variables-API
one matches the name against the fixed regex groups (ignoring the type) and
agrees on the FLOAT examples, but the two functions are not the same rule. -/
theorem categoryClassification_amended :
    (∀ name, determineTokenCategory name VarType.COLOR = Category.color) ∧
    (∀ name, determineTokenCategory name VarType.STRING = Category.typography) ∧
    determineTokenCategory "corner-radius-lg" VarType.FLOAT = Category.borderRadius ∧
    determineTokenCategory "space-lg" VarType.FLOAT = Category.spacing ∧
    createTokenPathCategory "corner-radius-lg" = Category.borderRadius ∧
    createTokenPathCategory "space-lg" = Category.spacing := by
  refine ⟨fun name => rfl, fun name => ?_, by decide, by decide, by decide, by decide⟩
  show (if _ then Category.typography else Category.typography) = Category.typography
  rw [ite_self]

/-! ## C2: sanitization idempotence -/

/-- C2, counterexample.  Sanitization is not idempotent: one pass over
`ColorColor` strips the leading `color` once and leaves `color`, which a
second pass strips to the empty string.  The same input refutes the
file-content variant `sanitizeName`. -/
theorem sanitize_idempotent_counterexample :
    sanitizeVariableName (sanitizeVariableName "ColorColor") ≠
      sanitizeVariableName "ColorColor" ∧
    sanitizeName (sanitizeName "ColorColor") ≠ sanitizeName "ColorColor" := by
  decide

/-- C2, amended.  Sanitization is idempotent on every input whose sanitized
form does not itself begin with one of the stripped words `color`, `spacing`,
`typography`, `borderradius`; a second application then finds the string
already lower-case and alphanumeric and strips nothing. -/
theorem sanitize_idempotent_amended (s : String)
    (h1 : listStartsWith (sanitizeVariableName s).data ("color".data) = false)
    (h2 : listStartsWith (sanitizeVariableName s).data ("spacing".data) = false)
    (h3 : listStartsWith (sanitizeVariableName s).data ("typography".data) = false)
    (h4 : listStartsWith (sanitizeVariableName s).data ("borderradius".data) = false) :
    sanitizeVariableName (sanitizeVariableName s) = sanitizeVariableName s :=
  sanitizeVariableName_fixed _ (sanitizeVariableName_chars s) h1 h2 h3 h4

/-- Witness for the amended C2 at the concrete input `Space LG`, whose
sanitized form `spacelg` starts with none of the stripped words. -/
theorem sanitize_idempotent_amended_witness :
    listStartsWith (sanitizeVariableName "Space LG").data ("color".data) = false ∧
    listStartsWith (sanitizeVariableName "Space LG").data ("spacing".data) = false ∧
    listStartsWith (sanitizeVariableName "Space LG").data ("typography".data) = false ∧
    listStartsWith (sanitizeVariableName "Space LG").data ("borderradius".data) = false ∧
    sanitizeVariableName (sanitizeVariableName "Space LG") = sanitizeVariableName "Space LG" :=
  ⟨by decide, by decide, by decide, by decide,
    sanitize_idempotent_amended "Space LG" (by decide) (by decide) (by decide) (by decide)⟩

/-! ## C5: plugin adapter versus Variables-API adapter -/

/-- C5, counterexample.  The two adapters do not assign the same category to
every variable: a COLOR-typed variable named `space-lg` is color for the
plugin (type first) and spacing for the Variables-API classifier (name
regexes only). -/
theorem adapters_same_rules_counterexample :
    determineTokenCategory "space-lg" VarType.COLOR = Category.color ∧
    createTokenPathCategory "space-lg" = Category.spacing ∧
    Category.color ≠ Category.spacing := by
  decide

/-- C5, amended.  The value transforms of the two adapters agree on the four
declared variable types, but they differ on unknown types (the plugin passes
the value through, the Variables-API adapter yields null), and the category
functions differ, e.g. on the FLOAT-typed name `shadow-card`. -/
theorem adapters_same_rules_amended :
    (∀ v, transformVariableValue VarType.COLOR v = transformValue VarType.COLOR v) ∧
    (∀ v, transformVariableValue VarType.FLOAT v = transformValue VarType.FLOAT v) ∧
    (∀ v, transformVariableValue VarType.STRING v = transformValue VarType.STRING v) ∧
    (∀ v, transformVariableValue VarType.BOOLEAN v = transformValue VarType.BOOLEAN v) ∧
    transformVariableValue (VarType.other "EXPRESSION") JsValue.null ≠
      transformValue (VarType.other "EXPRESSION") JsValue.null ∧
    determineTokenCategory "shadow-card" VarType.FLOAT ≠
      createTokenPathCategory "shadow-card" := by
  exact ⟨fun v => rfl, fun v => rfl, fun v => rfl, fun v => rfl, by decide, by decide⟩

/-! ## C3 and C4: colour conversion -/

theorem jsRound_byte_bounds {q : ℚ} (h0 : 0 ≤ q) (h1 : q ≤ 1) :
    0 ≤ jsRound (q * 255) ∧ jsRound (q * 255) ≤ 255 := by
  unfold jsRound
  constructor
  · rw [Int.le_floor]
    push_cast
    nlinarith
  · rw [Int.floor_le_iff]
    push_cast
    nlinarith

theorem natToHex_lt16 {n : ℕ} (h : n < 16) : natToHex n = [hexDigitChar n] := by
  rw [natToHex, dif_pos h]

theorem natToHex_byte {n : ℕ} (h16 : 16 ≤ n) (h : n ≤ 255) :
    natToHex n = [hexDigitChar (n / 16), hexDigitChar (n % 16)] := by
  rw [natToHex, dif_neg (by omega), natToHex_lt16 (by omega)]
  rfl

theorem padTwo_natToHex_eq_spec {n : ℕ} (h : n ≤ 255) :
    String.mk (padStartTwoZero (natToHex n)) = specTwoHex n := by
  by_cases hn : n < 16
  · rw [natToHex_lt16 hn]
    unfold padStartTwoZero specTwoHex
    have hdiv : n / 16 = 0 := by omega
    have hmod : n % 16 = n := by omega
    rw [hdiv, hmod]
    have h0 : hexDigitChar 0 = '0' := by decide
    simp [h0]
  · rw [natToHex_byte (by omega) h]
    unfold padStartTwoZero specTwoHex
    simp

theorem toHexByte_spec {q : ℚ} (h0 : 0 ≤ q) (h1 : q ≤ 1) :
    toHexByte q = specTwoHex (jsRound (q * 255)).toNat := by
  obtain ⟨hl, hr⟩ := jsRound_byte_bounds h0 h1
  unfold toHexByte intToHex
  rw [if_neg (by omega)]
  exact padTwo_natToHex_eq_spec (by omega)

/-- C3.  For a colour with alpha exactly one and channels in the unit
interval, `colorToHex` takes the hex branch and renders `#` followed by each
channel scaled by 255, rounded, written as two lower-case hex digits
(zero-padded). -/
theorem colorToHex_alpha_one (r g b : ℚ)
    (hr0 : 0 ≤ r) (hr1 : r ≤ 1) (hg0 : 0 ≤ g) (hg1 : g ≤ 1)
    (hb0 : 0 ≤ b) (hb1 : b ≤ 1) :
    colorToHex ⟨r, g, b, 1⟩ =
      ColorOut.hex ("#" ++ specTwoHex (jsRound (r * 255)).toNat ++
        specTwoHex (jsRound (g * 255)).toNat ++
        specTwoHex (jsRound (b * 255)).toNat) := by
  unfold colorToHex
  dsimp only
  rw [if_neg (by norm_num), toHexByte_spec hr0 hr1, toHexByte_spec hg0 hg1,
    toHexByte_spec hb0 hb1]

/-- Witness for C3 at black and white: `r=g=b=0` gives `#000000` and
`r=g=b=1` gives `#ffffff`. -/
theorem colorToHex_alpha_one_witness :
    colorToHex ⟨0, 0, 0, 1⟩ = ColorOut.hex "#000000" ∧
    colorToHex ⟨1, 1, 1, 1⟩ = ColorOut.hex "#ffffff" := by
  have e0 : jsRound ((0:ℚ) * 255) = 0 := by
    unfold jsRound
    norm_num [Int.floor_eq_iff]
  have e1 : jsRound ((1:ℚ) * 255) = 255 := by
    unfold jsRound
    norm_num [Int.floor_eq_iff]
  have h0 := colorToHex_alpha_one 0 0 0 le_rfl zero_le_one le_rfl zero_le_one le_rfl zero_le_one
  have h1 := colorToHex_alpha_one 1 1 1 zero_le_one le_rfl zero_le_one le_rfl zero_le_one le_rfl
  rw [e0] at h0
  rw [e1] at h1
  exact ⟨by rw [h0]; decide, by rw [h1]; decide⟩

/-- C4.  For a valid colour with alpha below one, `colorToHex` takes the
`rgba` branch: the three channels are scaled by 255 and rounded to integers
in the range 0–255 and the alpha component is passed through unrounded. -/
theorem colorToHex_alpha_lt_one (r g b a : ℚ)
    (hr0 : 0 ≤ r) (hr1 : r ≤ 1) (hg0 : 0 ≤ g) (hg1 : g ≤ 1)
    (hb0 : 0 ≤ b) (hb1 : b ≤ 1) (ha : a < 1) :
    colorToHex ⟨r, g, b, a⟩ =
      ColorOut.rgba (jsRound (r * 255)) (jsRound (g * 255)) (jsRound (b * 255)) a ∧
    (0 ≤ jsRound (r * 255) ∧ jsRound (r * 255) ≤ 255) ∧
    (0 ≤ jsRound (g * 255) ∧ jsRound (g * 255) ≤ 255) ∧
    (0 ≤ jsRound (b * 255) ∧ jsRound (b * 255) ≤ 255) := by
  refine ⟨?_, jsRound_byte_bounds hr0 hr1, jsRound_byte_bounds hg0 hg1,
    jsRound_byte_bounds hb0 hb1⟩
  unfold colorToHex
  dsimp only
  rw [if_pos ha]

/-- Witness for C4 at the mid-grey half-transparent colour. -/
theorem colorToHex_alpha_lt_one_witness :
    colorToHex ⟨1/2, 1/2, 1/2, 1/2⟩ = ColorOut.rgba 128 128 128 (1/2) ∧
    (0:ℤ) ≤ 128 ∧ (128:ℤ) ≤ 255 := by
  have e : jsRound ((1/2 : ℚ) * 255) = 128 := by
    unfold jsRound
    norm_num [Int.floor_eq_iff]
  have h := colorToHex_alpha_lt_one (1/2) (1/2) (1/2) (1/2)
    (by norm_num) (by norm_num) (by norm_num) (by norm_num)
    (by norm_num) (by norm_num) (by norm_num)
  rw [e] at h
  exact ⟨h.1, by norm_num, by norm_num⟩

/-! ## C7: the webhook endpoint -/

/-- C7.  A `tokens_updated` body runs `git pull origin main` and the Swift
regeneration exactly once each, in that order, answering 200 with
`success: true` when both succeed and 500 with the failing command's error
message otherwise; any other event value runs no shell command and is
answered 200 with an `Event ignored` message. -/
theorem webhook_spec (event : String) (pull gen : Except String String) :
    (event ≠ "tokens_updated" →
      figmaWebhookHandler event pull gen =
        ({ status := 200, success := none, message := some "Event ignored",
           error := none }, [])) ∧
    (∀ a b, event = "tokens_updated" → pull = .ok a → gen = .ok b →
      figmaWebhookHandler event pull gen =
        ({ status := 200, success := some true,
           message := some "Tokens updated successfully", error := none },
         ["git pull origin main", "cd scripts && npm run generate-swift"])) ∧
    (∀ e, event = "tokens_updated" → pull = .error e →
      figmaWebhookHandler event pull gen =
        ({ status := 500, success := some false, message := none,
           error := some e }, ["git pull origin main"])) ∧
    (∀ a e, event = "tokens_updated" → pull = .ok a → gen = .error e →
      figmaWebhookHandler event pull gen =
        ({ status := 500, success := some false, message := none,
           error := some e },
         ["git pull origin main", "cd scripts && npm run generate-swift"])) := by
  refine ⟨fun hne => ?_, fun a b hev hp hg => ?_, fun e hev hp => ?_,
    fun a e hev hp hg => ?_⟩
  · unfold figmaWebhookHandler
    rw [if_pos hne]
  · unfold figmaWebhookHandler
    rw [if_neg (by simp [hev]), hp, hg]
  · unfold figmaWebhookHandler
    rw [if_neg (by simp [hev]), hp]
  · unfold figmaWebhookHandler
    rw [if_neg (by simp [hev]), hp, hg]

/-- Witness for C7: the ignored path at event `other` and the success path at
event `tokens_updated`, both at concrete command results. -/
theorem webhook_spec_witness :
    figmaWebhookHandler "other" (.ok "") (.ok "") =
      ({ status := 200, success := none, message := some "Event ignored",
         error := none }, []) ∧
    figmaWebhookHandler "tokens_updated" (.ok "") (.ok "") =
      ({ status := 200, success := some true,
         message := some "Tokens updated successfully", error := none },
       ["git pull origin main", "cd scripts && npm run generate-swift"]) :=
  ⟨(webhook_spec "other" (.ok "") (.ok "")).1 (by decide),
   (webhook_spec "tokens_updated" (.ok "") (.ok "")).2.1 "" "" rfl rfl rfl⟩

/-! ## C8: missing credentials -/

/-- C8.  When the access token or the file key is unset or empty, the
Variables-API adapter exits with code 1 and the descriptive message before
any network call, and writes no token store — whatever the network would have
answered. -/
theorem figmaSync_missing_credentials (accessToken fileKey : Option String)
    (collectionsFilter modesFilter : List String)
    (fetchResult : Except String FigmaData) (timestamp : String)
    (h : jsFalsyEnv accessToken = true ∨ jsFalsyEnv fileKey = true) :
    figmaSyncRun accessToken fileKey collectionsFilter modesFilter fetchResult timestamp =
      { exitCode := some 1,
        errorMessage := some "Missing required environment variables: FIGMA_ACCESS_TOKEN and FIGMA_FILE_KEY must be set in .env file",
        networkCalled := false, tokensWritten := false, written := none } := by
  unfold figmaSyncRun
  rw [if_pos]
  rcases h with h | h <;> simp [h]

/-- Witness for C8: both environment variables absent, a fetch that would have
succeeded with empty data. -/
theorem figmaSync_missing_credentials_witness :
    figmaSyncRun none none [] [] (.ok ⟨[], []⟩) "" =
      { exitCode := some 1,
        errorMessage := some "Missing required environment variables: FIGMA_ACCESS_TOKEN and FIGMA_FILE_KEY must be set in .env file",
        networkCalled := false, tokensWritten := false, written := none } :=
  figmaSync_missing_credentials none none [] [] (.ok ⟨[], []⟩) "" (Or.inl rfl)

/-! ## C9: the renderer on a concrete store -/

theorem listContainsSub_append_of_right {needle b : List Char} (a : List Char)
    (h : listContainsSub needle b = true) :
    listContainsSub needle (a ++ b) = true := by
  induction a with
  | nil => simpa using h
  | cons c t ih =>
    show listContainsSub needle (c :: (t ++ b)) = true
    rw [listContainsSub, Bool.or_eq_true]
    exact Or.inr ih

theorem strIncludes_append_right (a b sub : String)
    (h : strIncludes b sub = true) : strIncludes (a ++ b) sub = true := by
  unfold strIncludes at h ⊢
  rw [String.data_append]
  exact listContainsSub_append_of_right a.data h

/-- C9.  On the token store with `color.primary = "#007AFF"` and
`spacing.small = 8`, whatever the generation timestamp, the rendered color
file contains the line binding `primary` to `Color(hex: "#007AFF")` and the
rendered spacing file contains the line binding `small` to the numeric
literal 8. -/
theorem renderer_end_to_end (ts : String) :
    strIncludes (generateColors ts [("primary", ⟨"#007AFF"⟩)])
      "static let primary = Color(hex: \"#007AFF\")" = true ∧
    strIncludes (generateSpacing ts [("small", ⟨8⟩)])
      "static let small: CGFloat = 8" = true := by
  constructor
  · show strIncludes ((("//\n//  Colors.swift\n//  Design System\n//\n//  ⚠️  AUTO-GENERATED FILE - DO NOT EDIT MANUALLY\n//  Generated from Figma Variables via Plugin\n//  Last updated: " ++ ts ++ "\n//\n\nimport SwiftUI\n\nextension Color \x7b\n") ++ "    static let " ++ toSwiftName "primary" ++ " = Color(hex: \"" ++ (if strStartsWith ("#007AFF" : String) "#" then ("#007AFF" : String) else "#" ++ "#007AFF") ++ "\")\n") ++ "\x7d\n") _ = true
    unfold strIncludes
    simp only [String.data_append, List.append_assoc]
    refine listContainsSub_append_of_right _ ?_
    refine listContainsSub_append_of_right _ ?_
    decide
  · show strIncludes ((("//\n//  Spacing.swift\n//  Design System\n//\n//  ⚠️  AUTO-GENERATED FILE - DO NOT EDIT MANUALLY\n//  Generated from Figma Variables via Plugin\n//  Last updated: " ++ ts ++ "\n//\n\nimport SwiftUI\n\nstruct Spacing \x7b\n") ++ "    static let " ++ toSwiftName "small" ++ ": CGFloat = " ++ jsNumToString 8 ++ "\n") ++ "\x7d\n") _ = true
    unfold strIncludes
    simp only [String.data_append, List.append_assoc]
    refine listContainsSub_append_of_right _ ?_
    refine listContainsSub_append_of_right _ ?_
    decide

/-! ## C10: last write wins in the plugin store -/

theorem lookupKey_setKey_self {α : Type} (l : List (String × α)) (k : String) (v : α) :
    lookupKey (setKey l k v) k = some v := by
  induction l with
  | nil => simp [setKey, lookupKey]
  | cons p t ih =>
    obtain ⟨k0, v0⟩ := p
    by_cases hk : k0 = k
    · simp [setKey, hk, lookupKey]
    · simp [setKey, hk, lookupKey, ih]

theorem lookupKey_setKey_ne {α : Type} (l : List (String × α)) (k k9 : String)
    (v : α) (h : k9 ≠ k) : lookupKey (setKey l k v) k9 = lookupKey l k9 := by
  induction l with
  | nil => simp [setKey, lookupKey, Ne.symm h]
  | cons p t ih =>
    obtain ⟨k0, v0⟩ := p
    by_cases hk : k0 = k
    · subst hk
      simp [setKey, lookupKey, Ne.symm h]
    · simp [setKey, hk, lookupKey, ih]

theorem lookup_pluginSetToken (t : PluginTokens) (c : Category) (n : String)
    (e : PluginToken) (c9 : Category) (n9 : String) :
    lookupKey (pluginSetToken t c n e c9) n9 =
      if c = c9 ∧ n = n9 then some e else lookupKey (t c9) n9 := by
  unfold pluginSetToken
  by_cases hc : c9 = c
  · subst hc
    rw [if_pos rfl]
    by_cases hn : n = n9
    · subst hn
      rw [if_pos ⟨rfl, rfl⟩, lookupKey_setKey_self]
    · rw [if_neg (by tauto), lookupKey_setKey_ne _ _ _ _ (fun he => hn he.symm)]
  · rw [if_neg hc, if_neg (fun hcn => hc hcn.1.symm)]

theorem lookup_applyWrites (ws : List StoreWrite) (t : PluginTokens)
    (c : Category) (n : String) :
    lookupKey (applyWrites ws t c) n =
      match findLastWrite ws c n with
      | some e => some e
      | none => lookupKey (t c) n := by
  induction ws generalizing t with
  | nil => rfl
  | cons w ws ih =>
    show lookupKey (applyWrites ws (pluginSetToken t w.category w.name w.entry) c) n = _
    rw [ih, findLastWrite]
    cases hfw : findLastWrite ws c n with
    | some e => rfl
    | none =>
      rw [lookup_pluginSetToken]
      by_cases h : w.category = c ∧ w.name = n
      · rw [if_pos h, if_pos h]
      · rw [if_neg h, if_neg h]

theorem applyWrites_append (a b : List StoreWrite) (t : PluginTokens) :
    applyWrites (a ++ b) t = applyWrites b (applyWrites a t) :=
  List.foldl_append _ _ _ _

/-- The per-variable inner fold of `transformVariablesToTokens` replays the
successful writes of that variable's modes. -/
theorem modes_foldl_eq_applyWrites (v : PluginVariable) (modes : List (String × JsValue))
    (t : PluginTokens) :
    modes.foldl (fun tokens modeVal =>
      match transformVariableValue v.resolvedType modeVal.2 with
      | none => tokens
      | some tv =>
        pluginSetToken tokens (determineTokenCategory v.name v.resolvedType)
          (sanitizeVariableName v.name)
          { value := tv, type := determineTokenCategory v.name v.resolvedType,
            variableId := v.key, originalName := v.name,
            resolvedType := v.resolvedType }) t =
    applyWrites (modes.filterMap (fun modeVal =>
      match transformVariableValue v.resolvedType modeVal.2 with
      | none => none
      | some tv =>
        some { category := determineTokenCategory v.name v.resolvedType,
               name := sanitizeVariableName v.name,
               entry := { value := tv,
                          type := determineTokenCategory v.name v.resolvedType,
                          variableId := v.key, originalName := v.name,
                          resolvedType := v.resolvedType } })) t := by
  induction modes generalizing t with
  | nil => rfl
  | cons m ms ih =>
    rw [List.foldl_cons, List.filterMap_cons]
    cases transformVariableValue v.resolvedType m.2 with
    | none => exact ih t
    | some tv => exact ih _

theorem transformVariablesToTokens_eq_applyWrites (vars : List PluginVariable) :
    transformVariablesToTokens vars = applyWrites (pluginWrites vars) emptyPluginTokens := by
  unfold transformVariablesToTokens pluginWrites
  generalize emptyPluginTokens = t
  induction vars generalizing t with
  | nil => rfl
  | cons v vs ih =>
    rw [List.foldl_cons, List.flatMap_cons, applyWrites_append]
    rw [modes_foldl_eq_applyWrites v v.valuesByMode t]
    exact ih _

/-- C10.  The plugin's variable-to-token transform is last-write-wins: the
entry stored at any (category, name) slot is exactly the last successful
(variable, mode) write aimed at that slot — so the last mode of a multi-mode
variable survives, and of two variables whose names sanitize alike the later
one survives, with no error and no merging.  The two concrete conjuncts
instantiate this: a two-mode FLOAT variable keeps the second mode's value,
and the colliding names `Gap A` / `gap-a` keep the second variable's token. -/
theorem plugin_last_write_wins :
    (∀ (vars : List PluginVariable) (c : Category) (n : String),
      lookupKey (transformVariablesToTokens vars c) n =
        findLastWrite (pluginWrites vars) c n) ∧
    lookupKey (transformVariablesToTokens
        [{ name := "gap", key := "k1", resolvedType := .FLOAT,
           valuesByMode := [("m1", .num 4), ("m2", .num 8)] }] Category.spacing) "gap" =
      some { value := .num 8, type := .spacing, variableId := "k1",
             originalName := "gap", resolvedType := .FLOAT } ∧
    lookupKey (transformVariablesToTokens
        [{ name := "Gap A", key := "k1", resolvedType := .FLOAT,
           valuesByMode := [("m", .num 4)] },
         { name := "gap-a", key := "k2", resolvedType := .FLOAT,
           valuesByMode := [("m", .num 8)] }] Category.spacing) "gapa" =
      some { value := .num 8, type := .spacing, variableId := "k2",
             originalName := "gap-a", resolvedType := .FLOAT } := by
  refine ⟨fun vars c n => ?_, by decide, by decide⟩
  rw [transformVariablesToTokens_eq_applyWrites, lookup_applyWrites]
  cases findLastWrite (pluginWrites vars) c n with
  | some e => rfl
  | none => rfl

/-! ## C6: the declared store shape -/

/-- C6, counterexample.  The store the Variables-API adapter writes for the
one-variable input `cexFigmaData` does not have the declared shape: under the
`spacing` category key it maps the collection name `primitives` to a further
nested object (mode, then variable name, then a bare value) rather than
mapping token names to objects with `value` and `type` fields. -/
theorem storeShape_counterexample :
    figmaStoreShapeCheck cexFigmaData "" = some false := by
  decide

theorem categoryWellFormed_pluginMap (l : List (String × PluginToken)) :
    categoryWellFormed (.node (l.map (fun e => (e.1, pluginTokenTree e.2)))) = true := by
  show (l.map (fun e => (e.1, pluginTokenTree e.2))).all (fun e => isTokenObject e.2) = true
  apply List.all_eq_true.mpr
  intro x hx
  obtain ⟨e, _, rfl⟩ := List.mem_map.mp hx
  rfl

/-- C6, amended.  The stores written by the plugin adapter have the declared
shape — a `$metadata` block plus one key per category mapping token names
directly to objects with `value` and `type` fields — for every input set of
variables; the Variables-API adapter instead nests
category → collection → mode → variable-name with the bare converted value at
the leaf, as the probe on `cexFigmaData` shows. -/
theorem storeShape_amended :
    (∀ (metadata : TokenTree) (vars : List PluginVariable),
      storeHasDeclaredShape
        (pluginStoreTree metadata (transformVariablesToTokens vars)) = true) ∧
    figmaLeafProbe cexFigmaData ["spacing", "primitives", "light", "space-lg"] =
      some (.num 8) := by
  refine ⟨fun metadata vars => ?_, by decide⟩
  unfold pluginStoreTree storeHasDeclaredShape
  rw [Bool.and_eq_true]
  constructor
  · rfl
  · rw [List.all_cons, Bool.and_eq_true]
    refine ⟨rfl, ?_⟩
    apply List.all_eq_true.mpr
    intro x hx
    obtain ⟨c, _, rfl⟩ := List.mem_map.mp hx
    dsimp only
    rw [Bool.or_eq_true]
    exact Or.inr (categoryWellFormed_pluginMap _)

end DesignTokens
